import Mathlib

/-!
Shallow embedding of the websocket chat broker and session
(`src/server.rs`, `src/main.rs`) and proofs about the specified
properties.

The broker (`ChatServer` in `server.rs`) keeps
  * `sessions : HashMap<usize, Recipient<Message>>` — session id to
    outbound handle; a handle is modelled as an opaque `Nat`;
  * `rooms : HashMap<String, HashSet<usize>>` — room name to member-id set;
  * `visitor_count : Arc<AtomicUsize>` — a shared counter.
HashMaps are embedded as association lists, HashSets as duplicate-free
lists; insertion and removal follow the semantics of the Rust std
collections (insert replaces an existing binding, set insert is a no-op
on a present element, removal of an absent key is a no-op).  The random
number generator used by `Connect` is modelled as an oracle: the value
it yields is an explicit argument of `connect`.

Each broker handler is embedded as a pure function from the pre-state
(plus the message fields) to the post-state together with the list of
deliveries it performs, where a delivery `(i, t)` means `do_send` of text
`t` through the handle registered for session id `i`.
-/

namespace WsChat

/-- Broker state: the fields of `ChatServer` (`server.rs` lines 65-70).
`sessions` maps a session id to its outbound handle (an opaque `Nat`);
`rooms` maps a room name to its member-id list; `visitorCount` is the
shared visitor counter. -/
structure ChatServer where
  sessions : List (Nat × Nat)
  rooms : List (String × List Nat)
  visitorCount : Nat
deriving DecidableEq, Repr

/-- Association-list lookup for the `sessions` map (`HashMap::get`). -/
def lookupSession : List (Nat × Nat) → Nat → Option Nat
  | [], _ => none
  | (k, v) :: rest, i => if k = i then some v else lookupSession rest i

/-- Association-list lookup for the `rooms` map (`HashMap::get`). -/
def lookupRoom : List (String × List Nat) → String → Option (List Nat)
  | [], _ => none
  | (n, ms) :: rest, r => if n = r then some ms else lookupRoom rest r

/-- `HashMap::insert` on the `sessions` map: replace the binding of an
existing key, otherwise add a new one. -/
def sessionInsert : List (Nat × Nat) → Nat → Nat → List (Nat × Nat)
  | [], i, a => [(i, a)]
  | (k, v) :: rest, i, a =>
    if k = i then (k, a) :: rest else (k, v) :: sessionInsert rest i a

/-- `rooms.entry(name).or_insert_with(HashSet::new).insert(id)`
(`server.rs` lines 126-129 and 210-213): find the room, creating it if
absent, and add `id` to its member set (`HashSet::insert` is a no-op on
a present element). -/
def roomInsert : List (String × List Nat) → String → Nat → List (String × List Nat)
  | [], name, id => [(name, [id])]
  | (n, ms) :: rest, name, id =>
    if n = name then (n, if id ∈ ms then ms else ms ++ [id]) :: rest
    else (n, ms) :: roomInsert rest name id

/-- The keys of the session registry. -/
def sessionIds (s : ChatServer) : List Nat :=
  s.sessions.map (fun p => p.1)

/-- The member list of room `r`, empty when the room does not exist. -/
def roomMembers (s : ChatServer) (r : String) : List Nat :=
  (lookupRoom s.rooms r).getD []

/-- `ChatServer::send_message` (`server.rs` lines 89-99): look the room
up; if absent do nothing; otherwise deliver `msg` to every member other
than `skipId` that has a registered handle.  A delivery is recorded as
the pair (recipient id, text). -/
def sendMessage (s : ChatServer) (room : String) (msg : String) (skipId : Nat) :
    List (Nat × String) :=
  match lookupRoom s.rooms room with
  | none => []
  | some members =>
    (members.filter (fun i => i != skipId && (lookupSession s.sessions i).isSome)).map
      (fun i => (i, msg))

/-- `ChatServer::new` followed by actor start (`server.rs` lines 73-84,
`main.rs` line 239): empty registry, a single empty room `"Main"`, and
the visitor counter at 0. -/
def initServer : ChatServer :=
  { sessions := [], rooms := [("Main", [])], visitorCount := 0 }

/-- One more than the largest `usize` on the source's 64-bit target:
`AtomicUsize::fetch_add` wraps modulo this. -/
def usizeMod : Nat := 2 ^ 64

/-- `Handler<Connect>::handle` (`server.rs` lines 115-136).  `addr` is
the connecting session's outbound handle and `rid` is the value the
random generator yields for this call (`self.rng.gen::<usize>()`, line
122 — the code performs no collision check).  Returns the post-state,
the id sent back, and the deliveries: first the `"Someone joined!!"`
notice to `"Main"` (computed on the pre-state), then the
`"Total visitors {count}"` notice to `"Main"` (computed after the
session is registered and added to `"Main"`, with the counter's value
from before the `fetch_add` increment; the increment itself wraps
modulo `2 ^ 64` as `AtomicUsize::fetch_add` does). -/
def connect (s : ChatServer) (addr : Nat) (rid : Nat) :
    ChatServer × Nat × List (Nat × String) :=
  let out1 := sendMessage s "Main" "Someone joined!!" 0
  let sessions1 := sessionInsert s.sessions rid addr
  let rooms1 := roomInsert s.rooms "Main" rid
  let count := s.visitorCount
  let s1 : ChatServer := ⟨sessions1, rooms1, (count + 1) % usizeMod⟩
  let out2 := sendMessage s1 "Main" ("Total visitors " ++ toString count) 0
  (s1, rid, out1 ++ out2)

/-- `Handler<Disconnect>::handle` (`server.rs` lines 143-162): if `id`
is registered, remove it from the registry and from every room,
recording the names of the rooms it was removed from, then broadcast
`"Someone Disconnected!!"` (with skip-id 0) to each such room on the
post-removal state.  If `id` is not registered nothing happens and
nothing is sent. -/
def disconnect (s : ChatServer) (id : Nat) : ChatServer × List (Nat × String) :=
  if (lookupSession s.sessions id).isSome then
    let sessions1 := s.sessions.filter (fun p => p.1 != id)
    let affected := (s.rooms.filter (fun p => p.2.contains id)).map (fun p => p.1)
    let rooms1 := s.rooms.map (fun p => (p.1, p.2.filter (fun i => i != id)))
    let s1 : ChatServer := ⟨sessions1, rooms1, s.visitorCount⟩
    (s1, affected.flatMap (fun r => sendMessage s1 r "Someone Disconnected!!" 0))
  else (s, [])

/-- `Handler<Join>::handle` (`server.rs` lines 195-216): remove `id`
from every room (recording which rooms contained it), broadcast
`"Someone Disconnected!!"` (skip-id 0) to each of those rooms on the
post-removal state, then insert `id` into room `name` (creating it if
absent) and broadcast `"Someone Connected!!"` (skip-id 0) to that room.
The code never consults the session registry. -/
def join (s : ChatServer) (id : Nat) (name : String) :
    ChatServer × List (Nat × String) :=
  let affected := (s.rooms.filter (fun p => p.2.contains id)).map (fun p => p.1)
  let rooms1 := s.rooms.map (fun p => (p.1, p.2.filter (fun i => i != id)))
  let s1 : ChatServer := ⟨s.sessions, rooms1, s.visitorCount⟩
  let out1 := affected.flatMap (fun r => sendMessage s1 r "Someone Disconnected!!" 0)
  let rooms2 := roomInsert rooms1 name id
  let s2 : ChatServer := ⟨s.sessions, rooms2, s.visitorCount⟩
  let out2 := sendMessage s2 name "Someone Connected!!" 0
  (s2, out1 ++ out2)

/-- `Handler<ClientMessage>::handle` (`server.rs` lines 169-171): a pure
broadcast of `msg` to room `room` skipping the sender `id`; the state is
untouched. -/
def clientMessage (s : ChatServer) (id : Nat) (msg : String) (room : String) :
    ChatServer × List (Nat × String) :=
  (s, sendMessage s room msg id)

/-- `Handler<ListRooms>::handle` (`server.rs` lines 179-187): the list
of room names; the state is untouched. -/
def listRooms (s : ChatServer) : ChatServer × List String :=
  (s, s.rooms.map (fun p => p.1))

/-- One broker operation, with all message fields (and, for `Connect`,
the rng oracle value) explicit. -/
inductive Op where
  | connect (addr : Nat) (rid : Nat)
  | disconnect (id : Nat)
  | join (id : Nat) (name : String)
  | clientMessage (id : Nat) (msg : String) (room : String)
  | listRooms
deriving DecidableEq, Repr

/-- The state transition of one broker operation (deliveries and results
discarded). -/
def applyOp (s : ChatServer) : Op → ChatServer
  | .connect addr rid => (connect s addr rid).1
  | .disconnect id => (disconnect s id).1
  | .join id name => (join s id name).1
  | .clientMessage id msg room => (clientMessage s id msg room).1
  | .listRooms => (listRooms s).1

/-- The state after a sequence of broker operations from the initial
state. -/
def applyOps (ops : List Op) : ChatServer :=
  ops.foldl applyOp initServer

/-- A broker state is reachable when some sequence of operations
produces it from the initial state. -/
def Reachable (s : ChatServer) : Prop :=
  ∃ ops : List Op, applyOps ops = s

/-- The registry invariant of the data model: every id in any room's
membership list is a key of the session registry. -/
def roomInvariant (s : ChatServer) : Prop :=
  ∀ p ∈ s.rooms, ∀ i ∈ p.2, i ∈ sessionIds s

instance roomInvariantDecidable (s : ChatServer) : Decidable (roomInvariant s) := by
  unfold roomInvariant
  infer_instance

/-- Session-local state: the fields of `WsChatSession` (`main.rs` lines
44-55) that the text-frame handler reads or writes (`id`, `room`,
`name`; the heartbeat instant and the broker address are irrelevant to
the handler's pure behaviour). -/
structure WsChatSession where
  id : Nat
  room : String
  name : Option String
deriving DecidableEq, Repr

/-- One outward effect of the session's text-frame handler: either a
text frame pushed to the client (`ctx.text(...)`) or a command sent to
the broker (`self.addr.send`/`do_send`). -/
inductive SessionOut where
  | clientText (t : String)
  | brokerListRooms
  | brokerJoin (id : Nat) (name : String)
  | brokerClientMessage (id : Nat) (msg : String) (room : String)
deriving DecidableEq, Repr

/-- Whitespace as Rust's `str::trim` sees it: `char::is_whitespace`,
i.e. the characters with the Unicode `White_Space` property
(U+0009..U+000D, U+0020, U+0085, U+00A0, U+1680, U+2000..U+200A,
U+2028, U+2029, U+202F, U+205F, U+3000). -/
def isWs (c : Char) : Bool :=
  let n := c.toNat
  (decide (0x09 ≤ n) && decide (n ≤ 0x0D)) || decide (n = 0x20) || decide (n = 0x85) ||
  decide (n = 0xA0) || decide (n = 0x1680) ||
  (decide (0x2000 ≤ n) && decide (n ≤ 0x200A)) || decide (n = 0x2028) ||
  decide (n = 0x2029) || decide (n = 0x202F) || decide (n = 0x205F) ||
  decide (n = 0x3000)

/-- Rust's `str::trim` (`main.rs` line 130) on the character list of a
string: drop whitespace from both ends. -/
def trimChars (l : List Char) : List Char :=
  ((l.dropWhile isWs).reverse.dropWhile isWs).reverse

/-- Rust's `str::trim` (`main.rs` line 130). -/
def strTrim (s : String) : String :=
  String.mk (trimChars s.data)

/-- Rust's `str::starts_with('/')` (`main.rs` line 132): the first
character is `/`. -/
def startsWithSlash (s : String) : Bool :=
  match s.data with
  | [] => false
  | c :: _ => c == '/'

/-- Splitting at the first space, the core of Rust's
`str::splitn(2, ' ')`: the characters before the first space, and the
characters after it when there is one. -/
def splitAtSpace : List Char → List Char × Option (List Char)
  | [] => ([], none)
  | c :: rest =>
    if c = ' ' then ([], some rest)
    else
      let (a, b) := splitAtSpace rest
      (c :: a, b)

/-- Rust's `str::splitn(2, ' ')` (`main.rs` line 133): split at the
first space only, yielding one piece when there is no space and exactly
two otherwise. -/
def splitn2 (s : String) : List String :=
  match splitAtSpace s.data with
  | (a, none) => [String.mk a]
  | (a, some b) => [String.mk a, String.mk b]

/-- Printability as Rust's `char::escape_debug` uses it, exact on the
Latin-1 range: U+0020..U+007E and U+00A0 upward are printable; the C0
controls, U+007F and the C1 controls (U+0080..U+009F) are not.  (Rust
additionally escapes some non-printable and grapheme-extended
characters above U+009F; the protocol strings of the claims are ASCII,
where this model is exact.) -/
def isDebugPrintable (c : Char) : Bool :=
  decide (0x20 ≤ c.toNat) && decide (c.toNat ≠ 0x7F) &&
  !(decide (0x80 ≤ c.toNat) && decide (c.toNat ≤ 0x9F))

/-- Rust's `{:?}` (Debug) rendering of one character inside a string
literal, as used by `format!("!!! unknown command: {:?}", m)`
(`main.rs` line 176), following `char::escape_debug_ext`: NUL, tab,
CR, LF, backslash and double quote get their two-character escapes,
printable characters print as themselves, and everything else becomes
a lowercase `\u` hex escape without padding. -/
def escapeDebugChar (c : Char) : List Char :=
  if c = '\x00' then ['\\', '0']
  else if c = '\t' then ['\\', 't']
  else if c = '\r' then ['\\', 'r']
  else if c = '\n' then ['\\', 'n']
  else if c = '\\' then ['\\', '\\']
  else if c = '"' then ['\\', '"']
  else if isDebugPrintable c then [c]
  else '\\' :: 'u' :: '\x7b' :: Nat.toDigits 16 c.toNat ++ ['\x7d']

/-- Rust's `{:?}` (Debug) rendering of a `str`: the escaped characters
wrapped in double quotes. -/
def rustDebugStr (s : String) : String :=
  String.mk ('"' :: s.data.flatMap escapeDebugChar ++ ['"'])

/-- The `ws::Message::Text` branch of
`StreamHandler::handle for WsChatSession` (`main.rs` lines 129-190):
trim the frame, dispatch slash commands (`/list`, `/join`, `/name`,
unknown), otherwise forward the (possibly name-prefixed) text to the
broker as a `ClientMessage` for the session's current room.  Returns
the updated session state and the outward effects in program order. -/
def handleText (sess : WsChatSession) (text : String) :
    WsChatSession × List SessionOut :=
  let m := strTrim text
  if startsWithSlash m then
    let v := splitn2 m
    let cmd := v.headI
    if cmd = "/list" then
      (sess, [.brokerListRooms])
    else if cmd = "/join" then
      if v.length = 2 then
        let newRoom := v.getD 1 ""
        ({ sess with room := newRoom },
         [.brokerJoin sess.id newRoom, .clientText "joined!!"])
      else
        (sess, [.clientText "!!! room name is requierd!!"])
    else if cmd = "/name" then
      if v.length = 2 then
        ({ sess with name := some (v.getD 1 "") }, [])
      else
        (sess, [.clientText "!!! name is required!!"])
    else
      (sess, [.clientText ("!!! unknown command: " ++ rustDebugStr m)])
  else
    let msg := match sess.name with
      | some n => n ++ ": " ++ m
      | none => m
    (sess, [.brokerClientMessage sess.id msg sess.room])

/-! ### Helper lemmas about the map/set embedding -/

theorem lookupRoom_roomInsert_self (rooms : List (String × List Nat)) (name : String)
    (id : Nat) :
    ∃ ms, lookupRoom (roomInsert rooms name id) name = some ms ∧ id ∈ ms := by
  induction rooms with
  | nil => exact ⟨[id], by simp [roomInsert, lookupRoom]⟩
  | cons hd tl ih =>
    obtain ⟨n, ms⟩ := hd
    by_cases h : n = name
    · subst h
      by_cases hid : id ∈ ms
      · exact ⟨ms, by simp [roomInsert, lookupRoom, hid], hid⟩
      · exact ⟨ms ++ [id], by simp [roomInsert, lookupRoom, hid]⟩
    · simpa [roomInsert, lookupRoom, h] using ih

theorem roomInsert_exclusive (rooms : List (String × List Nat)) (name : String) (id : Nat) :
    (∀ q ∈ rooms, id ∉ q.2) → ∀ p ∈ roomInsert rooms name id, id ∈ p.2 → p.1 = name := by
  induction rooms with
  | nil =>
    intro _ p hp _
    simp only [roomInsert, List.mem_singleton] at hp
    subst hp; rfl
  | cons hd tl ih =>
    obtain ⟨n, ms⟩ := hd
    intro h p hp hid
    by_cases hn : n = name
    · subst hn
      simp only [roomInsert, eq_self_iff_true, if_true, List.mem_cons] at hp
      rcases hp with hp | hp
      · subst hp; rfl
      · exact absurd hid (h p (List.mem_cons_of_mem _ hp))
    · simp only [roomInsert, if_neg hn, List.mem_cons] at hp
      rcases hp with hp | hp
      · subst hp
        exact absurd hid (h (n, ms) (List.mem_cons_self _ _))
      · exact ih (fun q hq => h q (List.mem_cons_of_mem _ hq)) p hp hid

theorem lookupSession_sessionInsert_self (l : List (Nat × Nat)) (i a : Nat) :
    lookupSession (sessionInsert l i a) i = some a := by
  induction l with
  | nil => simp [sessionInsert, lookupSession]
  | cons hd tl ih =>
    obtain ⟨k, v⟩ := hd
    by_cases h : k = i
    · simp [sessionInsert, lookupSession, h]
    · simp [sessionInsert, lookupSession, h, ih]

theorem lookupSession_sessionInsert_ne (l : List (Nat × Nat)) (i a j : Nat)
    (h : j ≠ i) :
    lookupSession (sessionInsert l i a) j = lookupSession l j := by
  have hne : i ≠ j := Ne.symm h
  induction l with
  | nil => simp [sessionInsert, lookupSession, hne]
  | cons hd tl ih =>
    obtain ⟨k, v⟩ := hd
    by_cases hk : k = i
    · subst hk
      simp [sessionInsert, lookupSession, hne]
    · simp [sessionInsert, lookupSession, hk, ih]

theorem join_mem_new_room (s : ChatServer) (id : Nat) (name : String) :
    ∃ ms, lookupRoom (join s id name).1.rooms name = some ms ∧ id ∈ ms := by
  simpa [join] using
    lookupRoom_roomInsert_self (s.rooms.map (fun p => (p.1, p.2.filter (fun i => i != id))))
      name id

theorem lookupSession_eq_none (l : List (Nat × Nat)) (i : Nat)
    (h : i ∉ l.map (fun p => p.1)) :
    lookupSession l i = none := by
  induction l with
  | nil => rfl
  | cons hd tl ih =>
    obtain ⟨k, v⟩ := hd
    simp only [List.map_cons, List.mem_cons] at h
    push_neg at h
    have hk : k ≠ i := Ne.symm h.1
    simp [lookupSession, hk, ih h.2]

theorem lookupRoom_mem (rooms : List (String × List Nat)) (r : String)
    (ms : List Nat) (h : lookupRoom rooms r = some ms) : (r, ms) ∈ rooms := by
  induction rooms with
  | nil => simp [lookupRoom] at h
  | cons hd tl ih =>
    obtain ⟨n, l⟩ := hd
    by_cases hn : n = r
    · subst hn
      simp only [lookupRoom, eq_self_iff_true, if_true, Option.some_inj] at h
      subst h
      exact List.mem_cons_self _ _
    · simp only [lookupRoom, if_neg hn] at h
      exact List.mem_cons_of_mem _ (ih h)

theorem sendMessage_eq_nil (s : ChatServer) (room msg : String) (skip : Nat)
    (h : lookupRoom s.rooms room = none) : sendMessage s room msg skip = [] := by
  unfold sendMessage
  rw [h]

theorem sendMessage_eq_deliveries (s : ChatServer) (room msg : String) (skip : Nat)
    (members : List Nat) (h : lookupRoom s.rooms room = some members) :
    sendMessage s room msg skip =
      (members.filter (fun i => i != skip && (lookupSession s.sessions i).isSome)).map
        (fun i => (i, msg)) := by
  unfold sendMessage
  rw [h]

theorem lookupSession_isSome_iff (l : List (Nat × Nat)) (i : Nat) :
    (lookupSession l i).isSome = true ↔ i ∈ l.map (fun p => p.1) := by
  induction l with
  | nil => simp [lookupSession]
  | cons hd tl ih =>
    obtain ⟨k, v⟩ := hd
    by_cases hk : k = i
    · subst hk
      simp [lookupSession]
    · have hk2 : i ≠ k := Ne.symm hk
      simp [lookupSession, hk, hk2, ih]

theorem lookupSession_remove (l : List (Nat × Nat)) (id : Nat) :
    lookupSession (l.filter (fun p => p.1 != id)) id = none := by
  induction l with
  | nil => rfl
  | cons hd tl ih =>
    obtain ⟨k, v⟩ := hd
    by_cases hk : k = id
    · subst hk
      simp [List.filter_cons, ih]
    · simp [List.filter_cons, hk, lookupSession, ih]

theorem mem_keys_sessionInsert (l : List (Nat × Nat)) (i a j : Nat)
    (h : j ∈ l.map (fun p => p.1)) :
    j ∈ (sessionInsert l i a).map (fun p => p.1) := by
  induction l with
  | nil => simp at h
  | cons hd tl ih =>
    obtain ⟨k, v⟩ := hd
    simp only [List.map_cons, List.mem_cons] at h
    by_cases hk : k = i
    · subst hk
      simpa [sessionInsert] using h
    · rcases h with rfl | h
      · simp [sessionInsert, hk]
      · simp [sessionInsert, hk, ih h]

theorem self_mem_keys_sessionInsert (l : List (Nat × Nat)) (i a : Nat) :
    i ∈ (sessionInsert l i a).map (fun p => p.1) := by
  induction l with
  | nil => simp [sessionInsert]
  | cons hd tl ih =>
    obtain ⟨k, v⟩ := hd
    by_cases hk : k = i
    · subst hk
      simp [sessionInsert]
    · simp [sessionInsert, hk, ih]

theorem mem_keys_filter_ne (l : List (Nat × Nat)) (id j : Nat)
    (h : j ∈ l.map (fun p => p.1)) (hne : j ≠ id) :
    j ∈ (l.filter (fun p => p.1 != id)).map (fun p => p.1) := by
  induction l with
  | nil => simp at h
  | cons hd tl ih =>
    obtain ⟨k, v⟩ := hd
    simp only [List.map_cons, List.mem_cons] at h
    rcases h with rfl | h
    · simp [List.filter_cons, hne]
    · by_cases hk : (k != id) = true
      · simp [List.filter_cons, hk, ih h]
      · simp [List.filter_cons, hk, ih h]

theorem mem_of_mem_roomInsert (rooms : List (String × List Nat)) (name : String)
    (id : Nat) (p : String × List Nat) (i : Nat) :
    p ∈ roomInsert rooms name id → i ∈ p.2 → (∃ q ∈ rooms, i ∈ q.2) ∨ i = id := by
  induction rooms with
  | nil =>
    intro hp hi
    simp only [roomInsert, List.mem_singleton] at hp
    subst hp
    simp only [List.mem_singleton] at hi
    exact Or.inr hi
  | cons hd tl ih =>
    obtain ⟨n, ms⟩ := hd
    intro hp hi
    by_cases hn : n = name
    · subst hn
      simp only [roomInsert, eq_self_iff_true, if_true, List.mem_cons] at hp
      rcases hp with rfl | hp
      · by_cases hid : id ∈ ms
        · simp only [if_pos hid] at hi
          exact Or.inl ⟨(n, ms), List.mem_cons_self _ _, hi⟩
        · simp only [if_neg hid, List.mem_append, List.mem_singleton] at hi
          rcases hi with hi | rfl
          · exact Or.inl ⟨(n, ms), List.mem_cons_self _ _, hi⟩
          · exact Or.inr rfl
      · exact Or.inl ⟨p, List.mem_cons_of_mem _ hp, hi⟩
    · simp only [roomInsert, if_neg hn, List.mem_cons] at hp
      rcases hp with rfl | hp
      · exact Or.inl ⟨(n, ms), List.mem_cons_self _ _, hi⟩
      · rcases ih hp hi with ⟨q, hq, hiq⟩ | hii
        · exact Or.inl ⟨q, List.mem_cons_of_mem _ hq, hiq⟩
        · exact Or.inr hii

theorem disconnect_of_none (s : ChatServer) (id : Nat)
    (h : lookupSession s.sessions id = none) : disconnect s id = (s, []) := by
  simp [disconnect, h]

theorem count_pair_map (l : List Nat) (t : String) (j : Nat) :
    (l.map (fun i => (i, t))).count (j, t) = l.count j := by
  induction l with
  | nil => rfl
  | cons a l ih =>
    by_cases ha : a = j
    · subst ha
      simp [List.count_cons, ih]
    · simp [List.count_cons, ih, ha]

theorem sendMessage_ne_skip (s : ChatServer) (room msg : String) (skip : Nat) :
    ∀ d ∈ sendMessage s room msg skip, d.1 ≠ skip := by
  intro d hd
  unfold sendMessage at hd
  cases h : lookupRoom s.rooms room with
  | none => rw [h] at hd; simp at hd
  | some members =>
    rw [h] at hd
    obtain ⟨i, hi, rfl⟩ := List.mem_map.mp hd
    have hfil := (List.mem_filter.mp hi).2
    simp only [Bool.and_eq_true, bne_iff_ne, ne_eq] at hfil
    exact hfil.1

theorem sendMessage_text (s : ChatServer) (room msg : String) (skip : Nat) :
    ∀ d ∈ sendMessage s room msg skip, d.2 = msg := by
  intro d hd
  cases h : lookupRoom s.rooms room with
  | none =>
    rw [sendMessage_eq_nil s room msg skip h] at hd
    simp at hd
  | some members =>
    rw [sendMessage_eq_deliveries s room msg skip members h] at hd
    obtain ⟨i, _, rfl⟩ := List.mem_map.mp hd
    rfl

theorem connect_total_visitors (s : ChatServer) (addr rid : Nat) (h : rid ≠ 0) :
    (rid, "Total visitors " ++ toString s.visitorCount) ∈ (connect s addr rid).2.2 := by
  apply List.mem_append_right
  obtain ⟨ms, hms, hmem⟩ := lookupRoom_roomInsert_self s.rooms "Main" rid
  unfold sendMessage
  rw [hms]
  apply List.mem_map.mpr
  refine ⟨rid, List.mem_filter.mpr ⟨hmem, ?_⟩, rfl⟩
  simp [lookupSession_sessionInsert_self, h]

theorem connect_delivery_text (s : ChatServer) (addr rid : Nat) :
    ∀ d ∈ (connect s addr rid).2.2,
      d.2 = "Someone joined!!" ∨ d.2 = "Total visitors " ++ toString s.visitorCount := by
  intro d hd
  simp only [connect, List.mem_append] at hd
  rcases hd with h | h
  · exact Or.inl (sendMessage_text _ _ _ _ d h)
  · exact Or.inr (sendMessage_text _ _ _ _ d h)

theorem join_not_elsewhere (s : ChatServer) (id : Nat) (name : String) :
    ∀ p ∈ (join s id name).1.rooms, id ∈ p.2 → p.1 = name := by
  have hrem : ∀ q ∈ s.rooms.map (fun p => (p.1, p.2.filter (fun i => i != id))),
      id ∉ q.2 := by
    intro q hq
    obtain ⟨p, _, rfl⟩ := List.mem_map.mp hq
    intro hid
    have := (List.mem_filter.mp hid).2
    simp at this
  simpa [join] using
    roomInsert_exclusive
      (s.rooms.map (fun p => (p.1, p.2.filter (fun i => i != id)))) name id hrem

/-! ### Claim theorems -/

/-- C5: for every broker state, every id and every room name, after
`Join(id, name)` the id is a member of room `name` and of no other
room. -/
theorem c5_join_exclusivity (s : ChatServer) (id : Nat) (name : String) :
    (∃ ms, lookupRoom (join s id name).1.rooms name = some ms ∧ id ∈ ms) ∧
    ∀ p ∈ (join s id name).1.rooms, id ∈ p.2 → p.1 = name :=
  ⟨join_mem_new_room s id name, join_not_elsewhere s id name⟩

/-- Witness for C5 at a concrete state: after connecting as id 1 and
joining "Sports", id 1 is in "Sports" and nowhere else. -/
theorem c5_join_exclusivity_witness :
    (∃ ms,
      lookupRoom (join (applyOps [Op.connect 7 1]) 1 "Sports").1.rooms "Sports" = some ms ∧
      1 ∈ ms) ∧
    ∀ p ∈ (join (applyOps [Op.connect 7 1]) 1 "Sports").1.rooms, 1 ∈ p.2 → p.1 = "Sports" :=
  c5_join_exclusivity (applyOps [Op.connect 7 1]) 1 "Sports"

/-- C2 counterexample: `Join` with an id unknown to the registry does
insert the id: from the initial state (empty registry), `Join(1, "X")`
changes the room map and makes 1 a member of "X". -/
theorem c2_unknown_join_counterexample :
    lookupSession initServer.sessions 1 = none ∧
    (join initServer 1 "X").1.rooms ≠ initServer.rooms ∧
    1 ∈ roomMembers (join initServer 1 "X").1 "X" := by decide

/-- C2 (amended): `Handler<Join>` never consults the session registry:
even for an id not present in the registry, `Join(id, name)` still
inserts `id` into room `name` (creating it if absent); only the
registry itself is left unchanged. -/
theorem c2_unknown_join_inserts (s : ChatServer) (id : Nat) (name : String)
    (_h : lookupSession s.sessions id = none) :
    (join s id name).1.sessions = s.sessions ∧
    ∃ ms, lookupRoom (join s id name).1.rooms name = some ms ∧ id ∈ ms :=
  ⟨rfl, join_mem_new_room s id name⟩

/-- Witness for C2 (amended) at the initial state with the unregistered
id 1. -/
theorem c2_unknown_join_inserts_witness :
    lookupSession initServer.sessions 1 = none ∧
    ((join initServer 1 "X").1.sessions = initServer.sessions ∧
     ∃ ms, lookupRoom (join initServer 1 "X").1.rooms "X" = some ms ∧ 1 ∈ ms) :=
  ⟨by decide, c2_unknown_join_inserts initServer 1 "X" (by decide)⟩

/-- C3 counterexample: `Connect` performs no collision check on the
value the rng yields: when the rng yields 5 twice, the second `Connect`
returns an id that is already registered and silently replaces the
first session's outbound handle (7 becomes 9). -/
theorem c3_fresh_id_counterexample :
    (connect (connect initServer 7 5).1 9 5).2.1 ∈ sessionIds (connect initServer 7 5).1 ∧
    lookupSession (connect initServer 7 5).1.sessions 5 = some 7 ∧
    lookupSession (connect (connect initServer 7 5).1 9 5).1.sessions 5 = some 9 := by
  decide

/-- C3 (amended): the id `Connect` returns is exactly the rng's output,
with no collision check; only when that output happens to be fresh is
the returned id collision-free, and in that case no existing session's
handle is overwritten (every other id's handle lookup is unchanged). -/
theorem c3_fresh_id (s : ChatServer) (addr rid : Nat) (h : rid ∉ sessionIds s) :
    lookupSession s.sessions rid = none ∧
    (connect s addr rid).2.1 = rid ∧
    lookupSession (connect s addr rid).1.sessions rid = some addr ∧
    ∀ i, i ≠ rid →
      lookupSession (connect s addr rid).1.sessions i = lookupSession s.sessions i := by
  refine ⟨lookupSession_eq_none s.sessions rid h, rfl, ?_, ?_⟩
  · simpa [connect] using lookupSession_sessionInsert_self s.sessions rid addr
  · intro i hi
    simpa [connect] using lookupSession_sessionInsert_ne s.sessions rid addr i hi

/-- Witness for C3 (amended): with id 3 live, a fresh rng output 5
leaves session 3's handle untouched. -/
theorem c3_fresh_id_witness :
    (5 ∉ sessionIds (connect initServer 7 3).1) ∧
    lookupSession (connect (connect initServer 7 3).1 9 5).1.sessions 3 =
      lookupSession (connect initServer 7 3).1.sessions 3 :=
  ⟨by decide, (c3_fresh_id (connect initServer 7 3).1 9 5 (by decide)).2.2.2 3 (by decide)⟩

/-- C7 counterexample: a bare `/join` makes the session emit the
misspelled literal `"!!! room name is requierd!!"` (`main.rs` line 166),
not the spelling `"!!! room name is required!!"` the claim states. -/
theorem c7_join_no_arg_counterexample :
    (handleText ⟨7, "Main", none⟩ "/join").2 =
      [SessionOut.clientText "!!! room name is requierd!!"] ∧
    SessionOut.clientText "!!! room name is required!!" ∉
      (handleText ⟨7, "Main", none⟩ "/join").2 := by decide

/-- C7 (amended): an inbound text frame that trims to exactly `/join`
makes the session emit the literal error text
`"!!! room name is requierd!!"` (the source's spelling), leave its
state — in particular its current room — unchanged, and send nothing to
the broker. -/
theorem c7_join_no_arg (sess : WsChatSession) (t : String) (h : strTrim t = "/join") :
    handleText sess t = (sess, [.clientText "!!! room name is requierd!!"]) := by
  simp only [handleText, h]
  rfl

/-- Witness for C7 (amended) on the frame `"  /join  "`. -/
theorem c7_join_no_arg_witness :
    strTrim "  /join  " = "/join" ∧
    handleText ⟨7, "Main", none⟩ "  /join  " =
      (⟨7, "Main", none⟩, [SessionOut.clientText "!!! room name is requierd!!"]) :=
  ⟨by decide, c7_join_no_arg ⟨7, "Main", none⟩ "  /join  " (by decide)⟩

/-- C8 counterexample: the unknown-command reply uses Rust's `{:?}`
Debug formatting (`main.rs` line 176), so `/foo` is echoed quoted as
`"!!! unknown command: \"/foo\""`, not verbatim as
`"!!! unknown command: /foo"`. -/
theorem c8_unknown_command_counterexample :
    (handleText ⟨7, "Main", none⟩ "/foo").2 =
      [SessionOut.clientText "!!! unknown command: \"/foo\""] ∧
    SessionOut.clientText "!!! unknown command: /foo" ∉
      (handleText ⟨7, "Main", none⟩ "/foo").2 := by decide

/-- C8 (amended): for an ASCII input whose trimmed form starts with `/`
and whose first token is none of `/list`, `/join`, `/name`, the session
emits exactly `"!!! unknown command: "` followed by the Debug
(quote-wrapped, backslash- and `\u`-escaped) rendering of the trimmed
input — not the input verbatim — and changes no state.  (The ASCII
hypothesis marks the range on which the `{:?}` model is exact; the
added quoting the counterexample exhibits is unconditional.) -/
theorem c8_unknown_command (sess : WsChatSession) (t : String)
    (h1 : startsWithSlash (strTrim t) = true)
    (h2 : (splitn2 (strTrim t)).headI ≠ "/list")
    (h3 : (splitn2 (strTrim t)).headI ≠ "/join")
    (h4 : (splitn2 (strTrim t)).headI ≠ "/name")
    (_h5 : ∀ c ∈ (strTrim t).data, c.toNat ≤ 0x7F) :
    handleText sess t =
      (sess, [.clientText ("!!! unknown command: " ++ rustDebugStr (strTrim t))]) := by
  simp only [handleText, h1, if_true, if_neg h2, if_neg h3, if_neg h4]

/-- Witness for C8 (amended) on the frame `"/foo bar"`. -/
theorem c8_unknown_command_witness :
    startsWithSlash (strTrim "/foo bar") = true ∧
    handleText ⟨7, "Main", none⟩ "/foo bar" =
      (⟨7, "Main", none⟩,
       [SessionOut.clientText ("!!! unknown command: " ++ rustDebugStr (strTrim "/foo bar"))]) :=
  ⟨by decide,
   c8_unknown_command ⟨7, "Main", none⟩ "/foo bar" (by decide) (by decide) (by decide)
     (by decide) (by decide)⟩

/-- C9: every system notice the broker broadcasts — those of `Connect`
(`"Someone joined!!"`, `"Total visitors <n>"`), `Disconnect`
(`"Someone Disconnected!!"`) and `Join` (`"Someone Disconnected!!"`,
`"Someone Connected!!"`) — goes through `send_message` with skip-id 0,
so none of their deliveries ever targets a session whose id is 0, even
when id 0 is a member of the room being notified. -/
theorem c9_notices_skip_zero (s : ChatServer) (addr rid id jid : Nat) (name : String) :
    (∀ d ∈ (connect s addr rid).2.2, d.1 ≠ 0) ∧
    (∀ d ∈ (disconnect s id).2, d.1 ≠ 0) ∧
    (∀ d ∈ (join s jid name).2, d.1 ≠ 0) := by
  refine ⟨?_, ?_, ?_⟩
  · intro d hd
    simp only [connect, List.mem_append] at hd
    rcases hd with h | h
    · exact sendMessage_ne_skip _ _ _ _ d h
    · exact sendMessage_ne_skip _ _ _ _ d h
  · intro d hd
    unfold disconnect at hd
    by_cases hc : (lookupSession s.sessions id).isSome = true
    · rw [if_pos hc] at hd
      simp only [List.mem_flatMap] at hd
      obtain ⟨r, _, hdr⟩ := hd
      exact sendMessage_ne_skip _ _ _ _ d hdr
    · rw [if_neg hc] at hd
      simp at hd
  · intro d hd
    simp only [join, List.mem_append, List.mem_flatMap] at hd
    rcases hd with ⟨r, _, hdr⟩ | h
    · exact sendMessage_ne_skip _ _ _ _ d hdr
    · exact sendMessage_ne_skip _ _ _ _ d h

/-- Witness for C9: with session 3 a member of "Main", a further connect
delivers the `"Someone joined!!"` notice to 3, and 3 is not 0. -/
theorem c9_notices_skip_zero_witness :
    ((3 : Nat), "Someone joined!!") ∈ (connect (connect initServer 7 3).1 9 4).2.2 ∧
    (3 : Nat) ≠ 0 :=
  ⟨by decide,
   (c9_notices_skip_zero (connect initServer 7 3).1 9 4 5 6 "R").1 (3, "Someone joined!!")
     (by decide)⟩

/-- Counter value of a fold of connects: each connect adds one to the
visitor counter, wrapping modulo `2 ^ 64`. -/
theorem foldConnect_visitorCount (prev : List (Nat × Nat)) :
    ∀ s : ChatServer, s.visitorCount < usizeMod →
      (prev.foldl (fun s p => (connect s p.1 p.2).1) s).visitorCount =
        (s.visitorCount + prev.length) % usizeMod := by
  induction prev with
  | nil =>
    intro s hs
    simpa using (Nat.mod_eq_of_lt hs).symm
  | cons hd tl ih =>
    intro s hs
    rw [List.foldl_cons, ih _ (Nat.mod_lt _ (by norm_num [usizeMod]))]
    show ((s.visitorCount + 1) % usizeMod + tl.length) % usizeMod = _
    rw [Nat.mod_add_mod]
    congr 1
    simp [List.length_cons]
    omega

/-- C10 counterexample: after `2 ^ 64` connects the visitor counter has
wrapped back to 0 (Rust's `AtomicUsize::fetch_add` wraps), so the
`(2 ^ 64 + 1)`-th sequential connect broadcasts `"Total visitors 0"`
and no delivery carries the claim's `"Total visitors <n-1>"` text
`"Total visitors 18446744073709551616"`. -/
theorem c10_total_visitors_counterexample :
    ((1 : Nat), "Total visitors 0") ∈
      (connect
        ((List.replicate usizeMod ((1 : Nat), (1 : Nat))).foldl
          (fun s p => (connect s p.1 p.2).1) initServer) 7 1).2.2 ∧
    ∀ d ∈ (connect
        ((List.replicate usizeMod ((1 : Nat), (1 : Nat))).foldl
          (fun s p => (connect s p.1 p.2).1) initServer) 7 1).2.2,
      d.2 ≠ "Total visitors " ++ toString usizeMod := by
  have hcount :
      ((List.replicate usizeMod ((1 : Nat), (1 : Nat))).foldl
        (fun s p => (connect s p.1 p.2).1) initServer).visitorCount = 0 := by
    rw [foldConnect_visitorCount _ initServer (by norm_num [usizeMod, initServer])]
    rw [List.length_replicate]
    show (0 + usizeMod) % usizeMod = 0
    rw [Nat.zero_add, Nat.mod_self]
  constructor
  · have hmem := connect_total_visitors
      ((List.replicate usizeMod ((1 : Nat), (1 : Nat))).foldl
        (fun s p => (connect s p.1 p.2).1) initServer) 7 1 (by decide)
    rw [hcount] at hmem
    exact hmem
  · intro d hd
    rcases connect_delivery_text _ 7 1 d hd with h | h
    · rw [h]
      decide
    · rw [h, hcount]
      decide

/-- C10 (amended): the `"Total visitors <n>"` notice reports the
counter value from before that call's `fetch_add` increment, and the
increment wraps modulo `2 ^ 64`: on any state whose counter is `c`,
`Connect` delivers `"Total visitors c"` (to the fresh member itself,
whenever the rng value is not the skip-id 0) and leaves the counter at
`(c + 1) % 2 ^ 64`; after `n` sequential connects the counter is
`n % 2 ^ 64`, so the `n`-th connect reports `(n - 1) % 2 ^ 64` — equal
to `n - 1` until the counter wraps, and the first-ever connect reports
0. -/
theorem c10_total_visitors_pre_increment :
    (∀ (s : ChatServer) (addr rid : Nat), rid ≠ 0 →
      (rid, "Total visitors " ++ toString s.visitorCount) ∈ (connect s addr rid).2.2 ∧
      (connect s addr rid).1.visitorCount = (s.visitorCount + 1) % usizeMod) ∧
    ∀ prev : List (Nat × Nat),
      (prev.foldl (fun s p => (connect s p.1 p.2).1) initServer).visitorCount =
        prev.length % usizeMod := by
  constructor
  · intro s addr rid hrid
    exact ⟨connect_total_visitors s addr rid hrid, rfl⟩
  · intro prev
    rw [foldConnect_visitorCount _ initServer (by norm_num [usizeMod, initServer])]
    simp [initServer]

/-- Witness for C10 (amended): the first-ever connect (rng value 1)
delivers `"Total visitors 0"` to the new member. -/
theorem c10_total_visitors_pre_increment_witness :
    (1 : Nat) ≠ 0 ∧
    ((1 : Nat), "Total visitors " ++ toString initServer.visitorCount) ∈
      (connect initServer 7 1).2.2 :=
  ⟨by decide, (c10_total_visitors_pre_increment.1 initServer 7 1 (by decide)).1⟩

/-- C6 counterexample: in the reachable state produced by two
unknown-id joins (room "X" holds ids 1 and 2, the registry is empty),
`ClientMessage(1, "hello", "X")` delivers nothing to 2 — the other
member of "X" — because 2 has no registry entry, falsifying "delivers
exactly once to every other id currently in room R's membership
set". -/
theorem c6_broadcast_counterexample :
    2 ∈ roomMembers (applyOps [Op.join 1 "X", Op.join 2 "X"]) "X" ∧
    (2 : Nat) ≠ 1 ∧
    (clientMessage (applyOps [Op.join 1 "X", Op.join 2 "X"]) 1 "hello" "X").2.count
      (2, "hello") = 0 := by decide

/-- C6 (amended): `ClientMessage(id, text, R)` changes no state, never
delivers to `id` itself, delivers `text` exactly once to every other
member of `R` that has a session-registry entry (members without one
are skipped), and is a silent no-op when `R` does not exist.  The
`Nodup` hypothesis is the `HashSet` representation invariant of room
membership. -/
theorem c6_broadcast_exclusion (s : ChatServer) (id : Nat) (text R : String)
    (hnd : ∀ p ∈ s.rooms, p.2.Nodup) :
    (clientMessage s id text R).1 = s ∧
    (∀ d ∈ (clientMessage s id text R).2, d.1 ≠ id) ∧
    (∀ j : Nat,
      (clientMessage s id text R).2.count (j, text) =
        if j ∈ roomMembers s R ∧ j ≠ id ∧ (lookupSession s.sessions j).isSome = true
        then 1 else 0) ∧
    (lookupRoom s.rooms R = none → (clientMessage s id text R).2 = []) := by
  refine ⟨rfl, ?_, ?_, ?_⟩
  · exact fun d hd => sendMessage_ne_skip s R text id d hd
  · intro j
    show (sendMessage s R text id).count (j, text) = _
    cases h : lookupRoom s.rooms R with
    | none =>
      rw [sendMessage_eq_nil s R text id h]
      simp only [List.count_nil]
      rw [if_neg]
      rintro ⟨hj, -, -⟩
      simp [roomMembers, h] at hj
    | some members =>
      rw [sendMessage_eq_deliveries s R text id members h]
      rw [count_pair_map]
      have hmem : roomMembers s R = members := by simp [roomMembers, h]
      have hndm : (members.filter
          (fun i => i != id && (lookupSession s.sessions i).isSome)).Nodup :=
        ((hnd (R, members) (lookupRoom_mem s.rooms R members h)).filter _)
      by_cases hj : j ∈ members ∧ j ≠ id ∧ (lookupSession s.sessions j).isSome = true
      · rw [if_pos]
        · have hjf : j ∈ members.filter
              (fun i => i != id && (lookupSession s.sessions i).isSome) := by
            apply List.mem_filter.mpr
            refine ⟨hj.1, ?_⟩
            simp [hj.2.1, hj.2.2]
          exact (List.nodup_iff_count_eq_one.mp hndm) j hjf
        · exact ⟨hmem ▸ hj.1, hj.2⟩
      · rw [if_neg]
        · apply List.count_eq_zero.mpr
          intro hjf
          obtain ⟨hjm, hcond⟩ := List.mem_filter.mp hjf
          simp only [Bool.and_eq_true, bne_iff_ne, ne_eq] at hcond
          exact hj ⟨hjm, hcond.1, hcond.2⟩
        · rw [hmem]
          exact hj
  · intro h
    exact sendMessage_eq_nil s R text id h

/-- Witness for C6 (amended): ids 1 and 2 connected and in "Main"; 2
sends and 1 receives exactly once. -/
theorem c6_broadcast_exclusion_witness :
    (∀ p ∈ (applyOps [Op.connect 7 1, Op.connect 9 2]).rooms, p.2.Nodup) ∧
    (clientMessage (applyOps [Op.connect 7 1, Op.connect 9 2]) 2 "hi" "Main").2.count
        (1, "hi") =
      if 1 ∈ roomMembers (applyOps [Op.connect 7 1, Op.connect 9 2]) "Main" ∧
         (1 : Nat) ≠ 2 ∧
         (lookupSession (applyOps [Op.connect 7 1, Op.connect 9 2]).sessions 1).isSome =
           true
      then 1 else 0 :=
  ⟨by decide,
   (c6_broadcast_exclusion (applyOps [Op.connect 7 1, Op.connect 9 2]) 2 "hi" "Main"
     (by decide)).2.2.1 1⟩

/-- Reachability restricted to well-used `Join`s: the same operations
as `Reachable`, except that a `Join` step is only taken for an id that
is registered at the time of the call. -/
inductive GuardedReach : ChatServer → Prop where
  | init : GuardedReach initServer
  | connect (s : ChatServer) (addr rid : Nat) :
      GuardedReach s → GuardedReach (connect s addr rid).1
  | disconnect (s : ChatServer) (id : Nat) :
      GuardedReach s → GuardedReach (disconnect s id).1
  | join (s : ChatServer) (id : Nat) (name : String) :
      GuardedReach s → id ∈ sessionIds s → GuardedReach (join s id name).1
  | clientMessage (s : ChatServer) (id : Nat) (msg room : String) :
      GuardedReach s → GuardedReach (clientMessage s id msg room).1
  | listRooms (s : ChatServer) :
      GuardedReach s → GuardedReach (listRooms s).1

/-- C1 counterexample: the state reached from the initial state by the
single operation `Join(1, "X")` — id 1 was never connected — has 1 in
room "X"'s membership but not in the session registry, falsifying the
invariant over the claim's reachable states. -/
theorem c1_registry_invariant_counterexample :
    Reachable (applyOps [Op.join 1 "X"]) ∧ ¬ roomInvariant (applyOps [Op.join 1 "X"]) :=
  ⟨⟨[Op.join 1 "X"], rfl⟩, by decide⟩

/-- C1 (amended): for every state reachable via Connect, Disconnect,
ClientMessage, ListRooms, and Join operations whose id is registered at
the time of the Join, every session id in any room's membership set is
also a key of the session registry. -/
theorem c1_registry_invariant (s : ChatServer) (h : GuardedReach s) :
    roomInvariant s := by
  induction h with
  | init => decide
  | connect s addr rid hs ih =>
    intro p hp i hi
    rcases mem_of_mem_roomInsert s.rooms "Main" rid p i hp hi with ⟨q, hq, hiq⟩ | rfl
    · exact mem_keys_sessionInsert s.sessions rid addr i (ih q hq i hiq)
    · exact self_mem_keys_sessionInsert s.sessions i addr
  | disconnect s id hs ih =>
    by_cases hc : (lookupSession s.sessions id).isSome = true
    · have h1 : (disconnect s id).1.sessions = s.sessions.filter (fun p => p.1 != id) := by
        simp [WsChat.disconnect, hc]
      have h2 : (disconnect s id).1.rooms =
          s.rooms.map (fun p => (p.1, p.2.filter (fun i => i != id))) := by
        simp [WsChat.disconnect, hc]
      intro p hp i hi
      rw [h2] at hp
      obtain ⟨q, hq, rfl⟩ := List.mem_map.mp hp
      have hiq := List.mem_filter.mp hi
      have hine : i ≠ id := by simpa using hiq.2
      have hkeys := ih q hq i hiq.1
      show i ∈ (disconnect s id).1.sessions.map (fun p => p.1)
      rw [h1]
      exact mem_keys_filter_ne s.sessions id i hkeys hine
    · have hnone : lookupSession s.sessions id = none := by
        cases hcc : lookupSession s.sessions id with
        | none => rfl
        | some v => rw [hcc] at hc; simp at hc
      have hs1 : (disconnect s id).1 = s := by simp [WsChat.disconnect, hnone]
      rw [hs1]
      exact ih
  | join s id name hs hid ih =>
    intro p hp i hi
    have hp2 : p ∈ roomInsert
        (s.rooms.map (fun q => (q.1, q.2.filter (fun i => i != id)))) name id := hp
    rcases mem_of_mem_roomInsert
        (s.rooms.map (fun q => (q.1, q.2.filter (fun i => i != id)))) name id p i hp2 hi with
      ⟨q, hq, hiq⟩ | rfl
    · obtain ⟨q0, hq0, rfl⟩ := List.mem_map.mp hq
      exact ih q0 hq0 i (List.mem_of_mem_filter hiq)
    · exact hid
  | clientMessage s id msg room hs ih => exact ih
  | listRooms s hs ih => exact ih

/-- Witness for C1 (amended): the guarded trace connect (id 1) then
`Join(1, "Sports")` satisfies the invariant. -/
theorem c1_registry_invariant_witness :
    roomInvariant (join (connect initServer 7 1).1 1 "Sports").1 :=
  c1_registry_invariant _
    (GuardedReach.join _ 1 "Sports" (GuardedReach.connect _ 7 1 GuardedReach.init)
      (by decide))

/-- C4 counterexample: in the reachable state where id 1 sits in room
"X" without being registered (after `Join(1, "X")` from the initial
state), `Disconnect(1)` leaves the state unchanged, so afterwards 1 is
still a member of room "X" — the claim's "absent from every room's
membership set" fails. -/
theorem c4_disconnect_counterexample :
    (disconnect (applyOps [Op.join 1 "X"]) 1).1 = applyOps [Op.join 1 "X"] ∧
    1 ∈ roomMembers (disconnect (applyOps [Op.join 1 "X"]) 1).1 "X" := by decide

/-- C4 (amended): for every state and every id, after `Disconnect(id)`
the id is absent from the session registry, and a second
`Disconnect(id)` returns the same state and sends no messages; the id
is additionally absent from every room's membership set provided the
starting state satisfies the registry invariant (every room member is
registered) — without it a room entry for an unregistered id survives,
since `Disconnect` cleans rooms only when the id was registered. -/
theorem c4_disconnect_idempotent (s : ChatServer) (id : Nat) :
    lookupSession (disconnect s id).1.sessions id = none ∧
    (roomInvariant s → ∀ p ∈ (disconnect s id).1.rooms, id ∉ p.2) ∧
    disconnect (disconnect s id).1 id = ((disconnect s id).1, []) := by
  by_cases hc : (lookupSession s.sessions id).isSome = true
  · have h1 : (disconnect s id).1.sessions = s.sessions.filter (fun p => p.1 != id) := by
      simp [disconnect, hc]
    have h2 : (disconnect s id).1.rooms =
        s.rooms.map (fun p => (p.1, p.2.filter (fun i => i != id))) := by
      simp [disconnect, hc]
    have hnone : lookupSession (disconnect s id).1.sessions id = none := by
      rw [h1]
      exact lookupSession_remove s.sessions id
    refine ⟨hnone, ?_, ?_⟩
    · intro _ p hp hid
      rw [h2] at hp
      obtain ⟨q, hq, rfl⟩ := List.mem_map.mp hp
      have := (List.mem_filter.mp hid).2
      simp at this
    · exact disconnect_of_none (disconnect s id).1 id hnone
  · have hnone : lookupSession s.sessions id = none := by
      cases hcc : lookupSession s.sessions id with
      | none => rfl
      | some v => rw [hcc] at hc; simp at hc
    have hs1 : disconnect s id = (s, []) := by simp [disconnect, hnone]
    refine ⟨?_, ?_, ?_⟩
    · rw [hs1]
      exact hnone
    · intro hinv p hp hid
      rw [hs1] at hp
      have hkeys := hinv p hp id hid
      have := (lookupSession_isSome_iff s.sessions id).mpr hkeys
      rw [hnone] at this
      simp at this
    · rw [hs1]
      exact disconnect_of_none s id hnone

/-- Witness for C4 (amended): id 1 connected and in "Main"; after its
disconnect the registry has no entry for 1, no room contains 1, and a
second disconnect is a no-op. -/
theorem c4_disconnect_idempotent_witness :
    lookupSession (disconnect (applyOps [Op.connect 7 1]) 1).1.sessions 1 = none ∧
    (∀ p ∈ (disconnect (applyOps [Op.connect 7 1]) 1).1.rooms, 1 ∉ p.2) ∧
    disconnect (disconnect (applyOps [Op.connect 7 1]) 1).1 1 =
      ((disconnect (applyOps [Op.connect 7 1]) 1).1, []) :=
  ⟨(c4_disconnect_idempotent (applyOps [Op.connect 7 1]) 1).1,
   (c4_disconnect_idempotent (applyOps [Op.connect 7 1]) 1).2.1 (by decide),
   (c4_disconnect_idempotent (applyOps [Op.connect 7 1]) 1).2.2⟩

end WsChat
